import Mathlib

/-!
Verification of the Life360 device-tracker platform (`device_tracker.py`).

The module is a thin adapter: a membership synchronizer (`process_data`)
that decides which members of the coordinator snapshot become tracked
entities, and a tracker-entity adapter (`Life360DeviceTracker`) exposing
per-member fields through read-only properties, with GPS-accuracy gating
of coordinator updates.

Modelling conventions:
- Python dicts become association lists with first-match lookup
  (`dictGet`, `attrsGet`) and in-place/append assignment (`attrsSet`).
- Python `None` becomes `Option.none`; fallible dict/attribute access
  returns `Except PyErr _` (`PyErr.typeError` for subscripting `None`,
  `PyErr.keyError` for a missing dict key, `PyErr.valueError` for
  `list.remove` on a missing element).
- Latitude, longitude, speed and accuracy are numeric payloads that the
  code only stores, passes through and order-compares; they are modelled
  as `Int` (no floating-point arithmetic is performed by the code).
- `super().available` of `CoordinatorEntity` (the host framework's
  availability, `coordinator.last_update_success`) is an opaque boolean
  parameter `super_available`.
- `super()._handle_coordinator_update()` writes the entity's current
  property values into the host state layer; this written snapshot is
  modelled by `HAState` / `writeState`.
-/

set_option maxHeartbeats 1000000

namespace Life360

/-- Attribute keys of a member's data dict (the union of the constants the
source imports: `ATTR_NAME`, `ATTR_ENTITY_PICTURE`, `ATTR_BATTERY_LEVEL`,
`ATTR_BATTERY_CHARGING`, `ATTR_GPS_ACCURACY`, `ATTR_LATITUDE`,
`ATTR_LONGITUDE`, `ATTR_ADDRESS`, `ATTR_AT_LOC_SINCE`, `ATTR_DRIVING`,
`ATTR_LAST_SEEN`, `ATTR_PLACE`, `ATTR_SPEED`, `ATTR_WIFI_ON`). -/
inductive AttrKey where
  | name
  | entity_picture
  | battery_level
  | battery_charging
  | gps_accuracy
  | latitude
  | longitude
  | address
  | at_loc_since
  | driving
  | last_seen
  | place
  | speed
  | wifi_on
deriving DecidableEq, Repr

/-- Values stored in a member's data dict (non-null ones). -/
inductive AttrVal where
  | str : String → AttrVal
  | int : Int → AttrVal
  | bool : Bool → AttrVal
deriving DecidableEq, Repr

/-- Python runtime errors the modelled code can raise. -/
inductive PyErr where
  | typeError
  | keyError : AttrKey → PyErr
  | valueError
deriving DecidableEq, Repr

/-- One member's data slice, per the snapshot shape in the coordinator
contract: `{name, entity_picture, battery_level, battery_charging,
gps_accuracy, latitude, longitude, address, at_loc_since, driving,
last_seen, place, speed, wifi_on}`. Fields the extra-attributes
comprehension filters for nullness are `Option`; the fields the property
getters subscript directly are non-null per the snapshot contract. -/
structure MemberData where
  name : String
  entity_picture : String
  battery_level : Int
  battery_charging : Option Bool
  gps_accuracy : Int
  latitude : Int
  longitude : Int
  address : Option String
  at_loc_since : Option String
  driving : Option Bool
  last_seen : Option String
  place : Option String
  speed : Option Int
  wifi_on : Option Bool
deriving DecidableEq, Repr

/-- The member dict's `.items()` view: key/value pairs, `none` standing
for a Python `null` value. -/
def memberItems (m : MemberData) : List (AttrKey × Option AttrVal) :=
  [ (AttrKey.name, some (AttrVal.str m.name)),
    (AttrKey.entity_picture, some (AttrVal.str m.entity_picture)),
    (AttrKey.battery_level, some (AttrVal.int m.battery_level)),
    (AttrKey.battery_charging, m.battery_charging.map AttrVal.bool),
    (AttrKey.gps_accuracy, some (AttrVal.int m.gps_accuracy)),
    (AttrKey.latitude, some (AttrVal.int m.latitude)),
    (AttrKey.longitude, some (AttrVal.int m.longitude)),
    (AttrKey.address, m.address.map AttrVal.str),
    (AttrKey.at_loc_since, m.at_loc_since.map AttrVal.str),
    (AttrKey.driving, m.driving.map AttrVal.bool),
    (AttrKey.last_seen, m.last_seen.map AttrVal.str),
    (AttrKey.place, m.place.map AttrVal.str),
    (AttrKey.speed, m.speed.map AttrVal.int),
    (AttrKey.wifi_on, m.wifi_on.map AttrVal.bool) ]

/-- The `_EXTRA_ATTRIBUTES` tuple, in source order. -/
def _EXTRA_ATTRIBUTES : List AttrKey :=
  [ AttrKey.address, AttrKey.at_loc_since, AttrKey.battery_charging,
    AttrKey.driving, AttrKey.last_seen, AttrKey.place, AttrKey.speed,
    AttrKey.wifi_on ]

/-- Dict lookup `attrs[k]` / `attrs.get(k)`: first (and, for a dict,
only) entry with the given key. -/
def attrsGet : List (AttrKey × AttrVal) → AttrKey → Option AttrVal
  | [], _ => none
  | kv :: rest, k => if kv.1 = k then some kv.2 else attrsGet rest k

/-- Dict assignment `attrs[k] = v`: replace the entry in place if the key
is present, else append (Python dicts keep insertion order). -/
def attrsSet : List (AttrKey × AttrVal) → AttrKey → AttrVal → List (AttrKey × AttrVal)
  | [], k, v => [(k, v)]
  | kv :: rest, k, v =>
    if kv.1 = k then (k, v) :: rest else kv :: attrsSet rest k v

/-- Body of the dict comprehension in `extra_state_attributes`: keep
`(k, v)` when `k in _EXTRA_ATTRIBUTES and v is not None`. -/
def keepAttr (kv : AttrKey × Option AttrVal) : Option (AttrKey × AttrVal) :=
  match kv.2 with
  | some v => if kv.1 ∈ _EXTRA_ATTRIBUTES then some (kv.1, v) else none
  | none => none

/-- The filtered attribute dict
`{k: v for k, v in self._data.items() if k in _EXTRA_ATTRIBUTES and v is not None}`. -/
def extraAttrsBase (m : MemberData) : List (AttrKey × AttrVal) :=
  (memberItems m).filterMap keepAttr

/-- Python truthiness of an attribute value. -/
def truthy : AttrVal → Bool
  | AttrVal.str s => !(s == "")
  | AttrVal.int n => !(n == 0)
  | AttrVal.bool b => b

/-- The `extra_state_attributes` property. `dat` is `self._data`
(possibly `None`); `driving_speed` is the `CONF_DRIVING_SPEED` option.
Faithful points: `self._data.items()` on `None` raises `TypeError`; the
driving override `attrs[ATTR_DRIVING] = attrs[ATTR_DRIVING] or
(attrs[ATTR_SPEED] > driving_speed)` raises `KeyError` on a missing key,
and Python `or` short-circuits on a truthy left operand, returning it. -/
def extra_state_attributes (dat : Option MemberData) (driving_speed : Option Int) :
    Except PyErr (List (AttrKey × AttrVal)) :=
  match dat with
  | none => Except.error PyErr.typeError
  | some m =>
    let attrs := extraAttrsBase m
    match driving_speed with
    | none => Except.ok attrs
    | some d =>
      match attrsGet attrs AttrKey.driving with
      | none => Except.error (PyErr.keyError AttrKey.driving)
      | some dv =>
        if truthy dv then Except.ok (attrsSet attrs AttrKey.driving dv)
        else
          match attrsGet attrs AttrKey.speed with
          | none => Except.error (PyErr.keyError AttrKey.speed)
          | some (AttrVal.int s) =>
            Except.ok (attrsSet attrs AttrKey.driving (AttrVal.bool (decide (d < s))))
          | some _ => Except.error PyErr.typeError

/-- Mutable state of one `Life360DeviceTracker` instance: the immutable
unique id (the member id), the eagerly cached `_attr_name` and
`_attr_entity_picture`, and the current data slice `_data` (re-resolved
on every coordinator update, possibly absent). -/
structure EntityState where
  unique_id : String
  attr_name : String
  attr_entity_picture : String
  data : Option MemberData
deriving DecidableEq, Repr

/-- The `available` property: `super().available and self._data is not None`. -/
def available (super_available : Bool) (st : EntityState) : Bool :=
  super_available && st.data.isSome

/-- The `name` property (host `TrackerEntity` returns the cached `_attr_name`). -/
def entity_name (st : EntityState) : String :=
  st.attr_name

/-- The `entity_picture` property: while available, re-reads the picture
from the slice into `_attr_entity_picture`, then returns the cached
attribute. Returns the (possibly updated) entity state and the value. -/
def entity_picture (super_available : Bool) (st : EntityState) : EntityState × String :=
  if available super_available st then
    match st.data with
    | some m =>
      let st2 := { st with attr_entity_picture := m.entity_picture }
      (st2, st2.attr_entity_picture)
    | none => (st, st.attr_entity_picture)
  else (st, st.attr_entity_picture)

/-- The `battery_level` property: `self._data[ATTR_BATTERY_LEVEL]`;
subscripting `None` raises `TypeError`. -/
def battery_level (st : EntityState) : Except PyErr Int :=
  match st.data with
  | none => Except.error PyErr.typeError
  | some m => Except.ok m.battery_level

/-- The `source_type` property: constant `"gps"`. -/
def source_type : String := "gps"

/-- The `force_update` property: always `False`. -/
def force_update : Bool := false

/-- The `location_accuracy` property: `self._data[ATTR_GPS_ACCURACY]`. -/
def location_accuracy (st : EntityState) : Except PyErr Int :=
  match st.data with
  | none => Except.error PyErr.typeError
  | some m => Except.ok m.gps_accuracy

/-- The `latitude` property: `self._data[ATTR_LATITUDE]`. -/
def latitude (st : EntityState) : Except PyErr Int :=
  match st.data with
  | none => Except.error PyErr.typeError
  | some m => Except.ok m.latitude

/-- The `longitude` property: `self._data[ATTR_LONGITUDE]`. -/
def longitude (st : EntityState) : Except PyErr Int :=
  match st.data with
  | none => Except.error PyErr.typeError
  | some m => Except.ok m.longitude

/-- Snapshot of the entity as the host state layer records it when
`async_write_ha_state` runs (triggered by
`super()._handle_coordinator_update()`). -/
structure HAState where
  ha_available : Bool
  ha_latitude : Option Int
  ha_longitude : Option Int
  ha_accuracy : Option Int
deriving DecidableEq, Repr

/-- What the host state layer records when the entity writes its state:
the current property values if available, else an unavailable marker. -/
def writeState (super_available : Bool) (st : EntityState) : HAState :=
  match st.data with
  | some m =>
    if super_available then
      { ha_available := true, ha_latitude := some m.latitude,
        ha_longitude := some m.longitude, ha_accuracy := some m.gps_accuracy }
    else
      { ha_available := false, ha_latitude := none,
        ha_longitude := none, ha_accuracy := none }
  | none =>
    { ha_available := false, ha_latitude := none,
      ha_longitude := none, ha_accuracy := none }

/-- A tracker entity together with the host state layer's last written
snapshot of it. -/
structure Entity where
  st : EntityState
  written : HAState
deriving DecidableEq, Repr

/-- Dict lookup keyed by strings (`d.get(k)` / `d[k]`). -/
def dictGet {α : Type} : List (String × α) → String → Option α
  | [], _ => none
  | kv :: rest, k => if kv.1 = k then some kv.2 else dictGet rest k

/-- The `_handle_coordinator_update` callback. In source order: first
`self._data = self.coordinator.data["members"].get(self.unique_id)`
(the shortcut is refreshed BEFORE the gate); then, if
`CONF_MAX_GPS_ACCURACY` is set and `self.location_accuracy` exceeds it, a
warning is logged and the handler returns without writing state; else
`super()._handle_coordinator_update()` writes the state. The returned
`Bool` is whether the accuracy warning was logged. Reading
`self.location_accuracy` with `self._data = None` raises `TypeError`. -/
def _handle_coordinator_update (super_available : Bool) (max_gps_acc : Option Int)
    (members : List (String × MemberData)) (e : Entity) :
    Except PyErr (Entity × Bool) :=
  let st1 : EntityState := { e.st with data := dictGet members e.st.unique_id }
  match max_gps_acc with
  | some t =>
    match location_accuracy st1 with
    | Except.error er => Except.error er
    | Except.ok acc =>
      if t < acc then Except.ok ({ e with st := st1 }, true)
      else Except.ok ({ st := st1, written := writeState super_available st1 }, false)
  | none => Except.ok ({ st := st1, written := writeState super_available st1 }, false)

/-- Python `list.remove(x)`: delete the first occurrence of `x`, raising
`ValueError` when `x` is absent. -/
def listRemove : List String → String → Except PyErr (List String)
  | [], _ => Except.error PyErr.valueError
  | y :: rest, x =>
    if y = x then Except.ok rest
    else (listRemove rest x).map (fun r => y :: r)

/-- The `async_will_remove_from_hass` teardown hook applied to the shared
registry: `self.hass.data[DOMAIN]["tracked_members"].remove(self.unique_id)`. -/
def async_will_remove_from_hass (tracked_members : List String) (uid : String) :
    Except PyErr (List String) :=
  listRemove tracked_members uid

/-- A place record of a circle's snapshot. -/
structure Place where
  name : String
  latitude : Int
  longitude : Int
  radius : Int
deriving DecidableEq, Repr

/-- A circle record of the snapshot: name, member-id list, places dict. -/
structure Circle where
  name : String
  members : List String
  places : List (String × Place)
deriving DecidableEq, Repr

/-- The coordinator's cached snapshot `coordinator.data`:
`{circles: {id: Circle}, members: {id: MemberData}}`. -/
structure Snapshot where
  circles : List (String × Circle)
  members : List (String × MemberData)
deriving DecidableEq, Repr

/-- Log lines the synchronizer emits, keyed by the identifiers they
mention (message text is irrelevant to the claims). -/
inductive LogEvent where
  | circleIncluded : String → Bool → LogEvent
  | placesLogged : String → List String → LogEvent
  | memberTracked : String → Bool → LogEvent
deriving DecidableEq, Repr

/-- Mutable state captured by the `async_setup_entry` closure:
the process-wide `tracked_members` registry, the accumulated
`included_circles_members` set, and the first-seen logging lists
`logged_circles`, `logged_places`, `logged_members`. All live across
calls of `process_data`. -/
structure SyncState where
  tracked_members : List String
  included_circles_members : List String
  logged_circles : List String
  logged_places : List String
  logged_members : List String
deriving DecidableEq, Repr

/-- The `_include_name` predicate: unconditionally `True` (the filter
argument is ignored by the source). -/
def _include_name (_nm : String) : Bool := true

/-- Python `set` insertion: membership-preserving, no duplicates. -/
def setInsert (s : List String) (x : String) : List String :=
  if x ∈ s then s else s ++ [x]

/-- Python `set.update(xs)`. -/
def setUpdate (s : List String) (xs : List String) : List String :=
  xs.foldl setInsert s

/-- The inner places loop of `process_data` over one included circle:
appends unseen place ids to `logged_places` and collects them as
`new_places` (returned second) for the one debug log line. -/
def processPlaces (places : List (String × Place)) (logged : List String) :
    List String × List String :=
  match places with
  | [] => (logged, [])
  | pp :: rest =>
    if pp.1 ∈ logged then processPlaces rest logged
    else
      let r := processPlaces rest (logged ++ [pp.1])
      (r.1, pp.1 :: r.2)

/-- The circles loop of `process_data`: first-seen logging of the
inclusion decision, accumulation of included circles' members into
`included_circles_members`, and first-seen place logging. Returns the
updated state and the log lines emitted. -/
def processCircles (circles : List (String × Circle)) (st : SyncState) :
    SyncState × List LogEvent :=
  match circles with
  | [] => (st, [])
  | cc :: rest =>
    let incl := _include_name cc.2.name
    let lc :=
      if cc.1 ∈ st.logged_circles then (st.logged_circles, ([] : List LogEvent))
      else (st.logged_circles ++ [cc.1], [LogEvent.circleIncluded cc.1 incl])
    let st1 : SyncState := { st with logged_circles := lc.1 }
    if incl then
      let st2 : SyncState :=
        { st1 with included_circles_members :=
            setUpdate st1.included_circles_members cc.2.members }
      let pl := processPlaces cc.2.places st2.logged_places
      let st3 : SyncState := { st2 with logged_places := pl.1 }
      let logs1 :=
        if pl.2.isEmpty then lc.2 else lc.2 ++ [LogEvent.placesLogged cc.1 pl.2]
      let r := processCircles rest st3
      (r.1, logs1 ++ r.2)
    else
      let r := processCircles rest st1
      (r.1, lc.2 ++ r.2)

/-- The members loop of `process_data`: a member is included when it is
in `included_circles_members`, not already in `tracked_members`, and
passes `_include_name`; the decision is logged once per member id;
included members are appended to the registry and a
`Life360DeviceTracker` is constructed for them (for a dict, the
constructor's lookup `coordinator.data["members"][member_id]` yields the
iterated value). Returns the updated state, the `new_entities` list in
creation order, and the log lines emitted. -/
def processMembers (members : List (String × MemberData)) (st : SyncState) :
    SyncState × List EntityState × List LogEvent :=
  match members with
  | [] => (st, [], [])
  | mm :: rest =>
    let incl := decide (mm.1 ∈ st.included_circles_members) &&
                !(decide (mm.1 ∈ st.tracked_members)) &&
                _include_name mm.2.name
    let lm :=
      if mm.1 ∈ st.logged_members then (st.logged_members, ([] : List LogEvent))
      else (st.logged_members ++ [mm.1], [LogEvent.memberTracked mm.1 incl])
    let st1 : SyncState := { st with logged_members := lm.1 }
    if incl then
      let st2 : SyncState :=
        { st1 with tracked_members := st1.tracked_members ++ [mm.1] }
      let ent : EntityState :=
        { unique_id := mm.1, attr_name := mm.2.name,
          attr_entity_picture := mm.2.entity_picture, data := some mm.2 }
      let r := processMembers rest st2
      (r.1, ent :: r.2.1, lm.2 ++ r.2.2)
    else
      let r := processMembers rest st1
      (r.1, r.2.1, lm.2 ++ r.2.2)

/-- Result of one `process_data` pass: the closure state afterwards, the
batch of entities handed to `async_add_entities`, and the log lines. -/
structure SyncResult where
  state : SyncState
  entities : List EntityState
  logs : List LogEvent
deriving DecidableEq, Repr

/-- One run of the `process_data` callback over a snapshot. -/
def process_data (snap : Snapshot) (st : SyncState) : SyncResult :=
  let pc := processCircles snap.circles st
  let pm := processMembers snap.members pc.1
  { state := pm.1, entities := pm.2.1, logs := pc.2 ++ pm.2.2 }

/-- Unique ids of the entities created by a pass. -/
def newIds (r : SyncResult) : List String :=
  r.entities.map (fun e => e.unique_id)

/-- Whole-system state for lifecycle traces: the synchronizer closure
state plus the unique ids of the entity instances currently alive. -/
structure SysState where
  sync : SyncState
  entities : List String
deriving DecidableEq, Repr

/-- Lifecycle events: a coordinator refresh (which re-runs
`process_data` and registers its new entities) or the host tearing down
one live entity (which runs `async_will_remove_from_hass`). -/
inductive Op where
  | refresh : Snapshot → Op
  | remove : String → Op
deriving DecidableEq, Repr

/-- One lifecycle step. Teardown is only delivered to a live entity (the
host removes only entities it holds); on it, the registry's
`list.remove` cannot fail because the id is tracked. -/
def step (s : SysState) (op : Op) : SysState :=
  match op with
  | Op.refresh snap =>
    let r := process_data snap s.sync
    { sync := r.state, entities := s.entities ++ newIds r }
  | Op.remove mid =>
    if mid ∈ s.entities then
      match async_will_remove_from_hass s.sync.tracked_members mid with
      | Except.ok tr =>
        { sync := { s.sync with tracked_members := tr },
          entities := s.entities.erase mid }
      | Except.error _ => s
    else s

/-- The state `async_setup_entry` starts from: empty registry, empty
accumulated set, nothing logged, no entities. -/
def initialSysState : SysState :=
  { sync := { tracked_members := [], included_circles_members := [],
              logged_circles := [], logged_places := [], logged_members := [] },
    entities := [] }

/-- Run a lifecycle trace from the initial state. -/
def runOps (ops : List Op) : SysState :=
  ops.foldl step initialSysState

/-! Helper lemmas about attribute dict operations. -/

theorem attrsGet_attrsSet_self (attrs : List (AttrKey × AttrVal)) (k : AttrKey) (v : AttrVal) :
    attrsGet (attrsSet attrs k v) k = some v := by
  induction attrs with
  | nil => simp [attrsSet, attrsGet]
  | cons kv rest ih =>
    by_cases h : kv.1 = k <;> simp [attrsSet, attrsGet, h, ih]

theorem attrsGet_base_driving (m : MemberData) :
    attrsGet (extraAttrsBase m) AttrKey.driving = m.driving.map AttrVal.bool := by
  rcases m with ⟨n, ep, bl, bc, ga, la, lo, ad, als, dr, ls, pl, sp, wo⟩
  cases bc <;> cases ad <;> cases als <;> cases dr <;> cases ls <;> cases pl <;>
    cases sp <;> cases wo <;> rfl

theorem attrsGet_base_speed (m : MemberData) :
    attrsGet (extraAttrsBase m) AttrKey.speed = m.speed.map AttrVal.int := by
  rcases m with ⟨n, ep, bl, bc, ga, la, lo, ad, als, dr, ls, pl, sp, wo⟩
  cases bc <;> cases ad <;> cases als <;> cases dr <;> cases ls <;> cases pl <;>
    cases sp <;> cases wo <;> rfl

/-! Helper lemmas about the synchronizer's set and logging primitives. -/

theorem mem_setInsert (s : List String) (x y : String) :
    y ∈ setInsert s x ↔ y ∈ s ∨ y = x := by
  by_cases h : x ∈ s
  · simp only [setInsert, if_pos h]
    constructor
    · exact Or.inl
    · rintro (hy | rfl)
      exacts [hy, h]
  · simp [setInsert, h]

theorem mem_setUpdate (s xs : List String) (y : String) :
    y ∈ setUpdate s xs ↔ y ∈ s ∨ y ∈ xs := by
  induction xs generalizing s with
  | nil => simp [setUpdate]
  | cons x rest ih =>
    show y ∈ setUpdate (setInsert s x) rest ↔ _
    rw [ih, mem_setInsert]
    simp [or_assoc]

theorem setUpdate_of_subset (s xs : List String) (h : ∀ x ∈ xs, x ∈ s) :
    setUpdate s xs = s := by
  induction xs with
  | nil => rfl
  | cons x rest ih =>
    show setUpdate (setInsert s x) rest = s
    rw [setInsert, if_pos (h x (List.mem_cons_self x rest))]
    exact ih (fun z hz => h z (List.mem_cons_of_mem x hz))

theorem processPlaces_mono (ps : List (String × Place)) (logged : List String)
    (x : String) (h : x ∈ logged) : x ∈ (processPlaces ps logged).1 := by
  induction ps generalizing logged with
  | nil => exact h
  | cons pp rest ih =>
    by_cases hm : pp.1 ∈ logged
    · simpa [processPlaces, hm] using ih logged h
    · simpa [processPlaces, hm] using
        ih (logged ++ [pp.1]) (List.mem_append_left _ h)

theorem processPlaces_complete (ps : List (String × Place)) (logged : List String) :
    ∀ pp ∈ ps, pp.1 ∈ (processPlaces ps logged).1 := by
  induction ps generalizing logged with
  | nil => intro pp hp; cases hp
  | cons q rest ih =>
    intro pp hp
    rcases List.mem_cons.mp hp with rfl | hp
    · by_cases hm : pp.1 ∈ logged
      · simpa [processPlaces, hm] using processPlaces_mono rest logged pp.1 hm
      · simpa [processPlaces, hm] using
          processPlaces_mono rest (logged ++ [pp.1]) pp.1
            (List.mem_append_right _ (List.mem_singleton.mpr rfl))
    · by_cases hm : q.1 ∈ logged
      · simpa [processPlaces, hm] using ih logged pp hp
      · simpa [processPlaces, hm] using ih (logged ++ [q.1]) pp hp

theorem processPlaces_saturated (ps : List (String × Place)) (logged : List String)
    (h : ∀ pp ∈ ps, pp.1 ∈ logged) : processPlaces ps logged = (logged, []) := by
  induction ps with
  | nil => rfl
  | cons q rest ih =>
    have hq : q.1 ∈ logged := h q (List.mem_cons_self q rest)
    simp only [processPlaces, if_pos hq]
    exact ih (fun pp hp => h pp (List.mem_cons_of_mem q hp))

/-- Unfolding of one circles-loop iteration (the circle-inclusion
predicate is constantly true, so the included branch is always taken). -/
theorem processCircles_cons (cc : String × Circle) (rest : List (String × Circle))
    (st : SyncState) :
    processCircles (cc :: rest) st =
      (let st3 : SyncState :=
        { st with
          logged_circles :=
            if cc.1 ∈ st.logged_circles then st.logged_circles
            else st.logged_circles ++ [cc.1],
          included_circles_members :=
            setUpdate st.included_circles_members cc.2.members,
          logged_places := (processPlaces cc.2.places st.logged_places).1 }
       let pl2 := (processPlaces cc.2.places st.logged_places).2
       let logs0 : List LogEvent :=
        if cc.1 ∈ st.logged_circles then []
        else [LogEvent.circleIncluded cc.1 true]
       let logs1 :=
        if pl2.isEmpty then logs0 else logs0 ++ [LogEvent.placesLogged cc.1 pl2]
       let r := processCircles rest st3
       (r.1, logs1 ++ r.2)) := by
  by_cases hlc : cc.1 ∈ st.logged_circles <;>
    simp [processCircles, _include_name, hlc]

/-- First-seen logging update: append an id unless already seen. -/
def logStep (l : List String) (x : String) : List String :=
  if x ∈ l then l else l ++ [x]

/-- State after one members-loop iteration that skips the member. -/
def skipState (st : SyncState) (mid : String) : SyncState :=
  { st with logged_members := logStep st.logged_members mid }

/-- State after one members-loop iteration that includes the member. -/
def inclState (st : SyncState) (mid : String) : SyncState :=
  { st with
    tracked_members := st.tracked_members ++ [mid],
    logged_members := logStep st.logged_members mid }

/-- The `Life360DeviceTracker` constructed for one member pair. -/
def mkTracker (mm : String × MemberData) : EntityState :=
  { unique_id := mm.1, attr_name := mm.2.name,
    attr_entity_picture := mm.2.entity_picture, data := some mm.2 }

/-- Unfolding of one members-loop iteration when the member qualifies. -/
theorem processMembers_cons_incl (mm : String × MemberData)
    (rest : List (String × MemberData)) (st : SyncState)
    (h1 : mm.1 ∈ st.included_circles_members)
    (h2 : mm.1 ∉ st.tracked_members) :
    processMembers (mm :: rest) st =
      ((processMembers rest (inclState st mm.1)).1,
       mkTracker mm :: (processMembers rest (inclState st mm.1)).2.1,
       (if mm.1 ∈ st.logged_members then []
        else [LogEvent.memberTracked mm.1 true]) ++
         (processMembers rest (inclState st mm.1)).2.2) := by
  by_cases hlm : mm.1 ∈ st.logged_members <;>
    simp [processMembers, _include_name, h1, h2, hlm, inclState, logStep, mkTracker]

/-- Unfolding of one members-loop iteration when the member does not
qualify (not in the accumulated included set, or already tracked). -/
theorem processMembers_cons_skip (mm : String × MemberData)
    (rest : List (String × MemberData)) (st : SyncState)
    (h : ¬(mm.1 ∈ st.included_circles_members ∧ mm.1 ∉ st.tracked_members)) :
    processMembers (mm :: rest) st =
      ((processMembers rest (skipState st mm.1)).1,
       (processMembers rest (skipState st mm.1)).2.1,
       (if mm.1 ∈ st.logged_members then []
        else [LogEvent.memberTracked mm.1 false]) ++
         (processMembers rest (skipState st mm.1)).2.2) := by
  by_cases hin : mm.1 ∈ st.included_circles_members
  · have htr : mm.1 ∈ st.tracked_members := by
      by_contra htr
      exact h ⟨hin, htr⟩
    by_cases hlm : mm.1 ∈ st.logged_members <;>
      simp [processMembers, _include_name, hin, htr, hlm, skipState, logStep]
  · by_cases hlm : mm.1 ∈ st.logged_members <;>
      simp [processMembers, _include_name, hin, hlm, skipState, logStep]

theorem skipState_included (st : SyncState) (mid : String) :
    (skipState st mid).included_circles_members = st.included_circles_members := rfl

theorem skipState_tracked (st : SyncState) (mid : String) :
    (skipState st mid).tracked_members = st.tracked_members := rfl

theorem inclState_included (st : SyncState) (mid : String) :
    (inclState st mid).included_circles_members = st.included_circles_members := rfl

theorem inclState_tracked (st : SyncState) (mid : String) :
    (inclState st mid).tracked_members = st.tracked_members ++ [mid] := rfl

theorem mem_logStep (l : List String) (x y : String) (h : y ∈ l) :
    y ∈ logStep l x := by
  by_cases hm : x ∈ l <;> simp [logStep, hm, h]

theorem self_mem_logStep (l : List String) (x : String) : x ∈ logStep l x := by
  by_cases hm : x ∈ l <;> simp [logStep, hm]

theorem processCircles_fixed (cs : List (String × Circle)) (st : SyncState) :
    (processCircles cs st).1.tracked_members = st.tracked_members ∧
    (processCircles cs st).1.logged_members = st.logged_members := by
  induction cs generalizing st with
  | nil => exact ⟨rfl, rfl⟩
  | cons cc rest ih =>
    rw [processCircles_cons]
    exact ih _

theorem processCircles_mono (cs : List (String × Circle)) (st : SyncState) :
    (∀ x, x ∈ st.logged_circles → x ∈ (processCircles cs st).1.logged_circles) ∧
    (∀ x, x ∈ st.included_circles_members →
      x ∈ (processCircles cs st).1.included_circles_members) ∧
    (∀ x, x ∈ st.logged_places → x ∈ (processCircles cs st).1.logged_places) := by
  induction cs generalizing st with
  | nil => exact ⟨fun _ h => h, fun _ h => h, fun _ h => h⟩
  | cons cc rest ih =>
    rw [processCircles_cons]
    refine ⟨fun x h => (ih _).1 x ?_, fun x h => (ih _).2.1 x ?_,
            fun x h => (ih _).2.2 x ?_⟩
    · by_cases hlc : cc.1 ∈ st.logged_circles <;> simp [hlc, h]
    · exact (mem_setUpdate _ _ _).mpr (Or.inl h)
    · exact processPlaces_mono _ _ _ h

theorem processCircles_saturates (cs : List (String × Circle)) (st : SyncState) :
    ∀ cc ∈ cs,
      cc.1 ∈ (processCircles cs st).1.logged_circles ∧
      (∀ x ∈ cc.2.members, x ∈ (processCircles cs st).1.included_circles_members) ∧
      (∀ pp ∈ cc.2.places, pp.1 ∈ (processCircles cs st).1.logged_places) := by
  induction cs generalizing st with
  | nil => intro cc h; cases h
  | cons dd rest ih =>
    intro cc hcc
    rcases List.mem_cons.mp hcc with rfl | hcc
    · rw [processCircles_cons]
      refine ⟨(processCircles_mono rest _).1 cc.1 ?_,
              fun x hx => (processCircles_mono rest _).2.1 x ?_,
              fun pp hp => (processCircles_mono rest _).2.2 pp.1 ?_⟩
      · by_cases hlc : cc.1 ∈ st.logged_circles <;> simp [hlc]
      · exact (mem_setUpdate _ _ _).mpr (Or.inr hx)
      · exact processPlaces_complete _ _ pp hp
    · rw [processCircles_cons]
      exact ih _ cc hcc

theorem processCircles_saturated (cs : List (String × Circle)) (st : SyncState)
    (h : ∀ cc ∈ cs,
      cc.1 ∈ st.logged_circles ∧
      (∀ x ∈ cc.2.members, x ∈ st.included_circles_members) ∧
      (∀ pp ∈ cc.2.places, pp.1 ∈ st.logged_places)) :
    processCircles cs st = (st, []) := by
  induction cs with
  | nil => rfl
  | cons cc rest ih =>
    obtain ⟨h1, h2, h3⟩ := h cc (List.mem_cons_self cc rest)
    rw [processCircles_cons]
    simp [if_pos h1, setUpdate_of_subset _ _ h2,
      processPlaces_saturated _ _ h3,
      ih (fun cc' h' => h cc' (List.mem_cons_of_mem _ h'))]

theorem processCircles_included_subset (cs : List (String × Circle)) (st : SyncState)
    (x : String)
    (h : x ∈ (processCircles cs st).1.included_circles_members) :
    x ∈ st.included_circles_members ∨ ∃ cc ∈ cs, x ∈ cc.2.members := by
  induction cs generalizing st with
  | nil => exact Or.inl h
  | cons cc rest ih =>
    rw [processCircles_cons] at h
    rcases ih _ h with hin | ⟨dd, hdd, hx⟩
    · rcases (mem_setUpdate _ _ _).mp hin with hs | hc
      · exact Or.inl hs
      · exact Or.inr ⟨cc, List.mem_cons_self cc rest, hc⟩
    · exact Or.inr ⟨dd, List.mem_cons_of_mem cc hdd, hx⟩

theorem processMembers_fixed (ms : List (String × MemberData)) (st : SyncState) :
    (processMembers ms st).1.included_circles_members = st.included_circles_members ∧
    (processMembers ms st).1.logged_circles = st.logged_circles ∧
    (processMembers ms st).1.logged_places = st.logged_places := by
  induction ms generalizing st with
  | nil => exact ⟨rfl, rfl, rfl⟩
  | cons mm rest ih =>
    by_cases hin : mm.1 ∈ st.included_circles_members ∧ mm.1 ∉ st.tracked_members
    · rw [processMembers_cons_incl mm rest st hin.1 hin.2]
      exact ih (inclState st mm.1)
    · rw [processMembers_cons_skip mm rest st hin]
      exact ih (skipState st mm.1)

theorem processMembers_tracked_eq (ms : List (String × MemberData)) (st : SyncState) :
    (processMembers ms st).1.tracked_members =
      st.tracked_members ++
        (processMembers ms st).2.1.map (fun e => e.unique_id) := by
  induction ms generalizing st with
  | nil => simp [processMembers]
  | cons mm rest ih =>
    by_cases hin : mm.1 ∈ st.included_circles_members ∧ mm.1 ∉ st.tracked_members
    · rw [processMembers_cons_incl mm rest st hin.1 hin.2]
      have := ih (inclState st mm.1)
      rw [inclState_tracked] at this
      simp [this, mkTracker, List.append_assoc]
    · rw [processMembers_cons_skip mm rest st hin]
      exact ih (skipState st mm.1)

theorem processMembers_logged_mono (ms : List (String × MemberData)) (st : SyncState)
    (x : String) (h : x ∈ st.logged_members) :
    x ∈ (processMembers ms st).1.logged_members := by
  induction ms generalizing st with
  | nil => exact h
  | cons mm rest ih =>
    by_cases hin : mm.1 ∈ st.included_circles_members ∧ mm.1 ∉ st.tracked_members
    · rw [processMembers_cons_incl mm rest st hin.1 hin.2]
      exact ih (inclState st mm.1) (mem_logStep _ _ _ h)
    · rw [processMembers_cons_skip mm rest st hin]
      exact ih (skipState st mm.1) (mem_logStep _ _ _ h)

theorem processMembers_logged_complete (ms : List (String × MemberData))
    (st : SyncState) : ∀ mm ∈ ms, mm.1 ∈ (processMembers ms st).1.logged_members := by
  induction ms generalizing st with
  | nil => intro mm h; cases h
  | cons nn rest ih =>
    intro mm hmm
    rcases List.mem_cons.mp hmm with rfl | hmm
    · by_cases hin : mm.1 ∈ st.included_circles_members ∧ mm.1 ∉ st.tracked_members
      · rw [processMembers_cons_incl mm rest st hin.1 hin.2]
        exact processMembers_logged_mono rest (inclState st mm.1) mm.1
          (self_mem_logStep _ _)
      · rw [processMembers_cons_skip mm rest st hin]
        exact processMembers_logged_mono rest (skipState st mm.1) mm.1
          (self_mem_logStep _ _)
    · by_cases hin : nn.1 ∈ st.included_circles_members ∧ nn.1 ∉ st.tracked_members
      · rw [processMembers_cons_incl nn rest st hin.1 hin.2]
        exact ih (inclState st nn.1) mm hmm
      · rw [processMembers_cons_skip nn rest st hin]
        exact ih (skipState st nn.1) mm hmm

theorem processMembers_tracked_mono (ms : List (String × MemberData)) (st : SyncState)
    (x : String) (h : x ∈ st.tracked_members) :
    x ∈ (processMembers ms st).1.tracked_members := by
  rw [processMembers_tracked_eq]
  exact List.mem_append_left _ h

theorem processMembers_saturates (ms : List (String × MemberData)) (st : SyncState) :
    ∀ mm ∈ ms, mm.1 ∈ st.included_circles_members →
      mm.1 ∈ (processMembers ms st).1.tracked_members := by
  induction ms generalizing st with
  | nil => intro mm h; cases h
  | cons nn rest ih =>
    intro mm hmm hincl
    rcases List.mem_cons.mp hmm with rfl | hmm
    · by_cases htr : mm.1 ∈ st.tracked_members
      · have hin : ¬(mm.1 ∈ st.included_circles_members ∧ mm.1 ∉ st.tracked_members) :=
          fun hc => hc.2 htr
        rw [processMembers_cons_skip mm rest st hin]
        exact processMembers_tracked_mono rest (skipState st mm.1) mm.1 htr
      · rw [processMembers_cons_incl mm rest st hincl htr]
        exact processMembers_tracked_mono rest (inclState st mm.1) mm.1
          (List.mem_append_right _ (List.mem_singleton.mpr rfl))
    · by_cases hin : nn.1 ∈ st.included_circles_members ∧ nn.1 ∉ st.tracked_members
      · rw [processMembers_cons_incl nn rest st hin.1 hin.2]
        exact ih (inclState st nn.1) mm hmm hincl
      · rw [processMembers_cons_skip nn rest st hin]
        exact ih (skipState st nn.1) mm hmm hincl

theorem processMembers_saturated (ms : List (String × MemberData)) (st : SyncState)
    (h : ∀ mm ∈ ms, mm.1 ∈ st.logged_members ∧
      (mm.1 ∈ st.included_circles_members → mm.1 ∈ st.tracked_members)) :
    processMembers ms st = (st, [], []) := by
  induction ms with
  | nil => rfl
  | cons mm rest ih =>
    obtain ⟨h1, h2⟩ := h mm (List.mem_cons_self mm rest)
    have hskip : ¬(mm.1 ∈ st.included_circles_members ∧ mm.1 ∉ st.tracked_members) :=
      fun hc => hc.2 (h2 hc.1)
    rw [processMembers_cons_skip mm rest st hskip]
    have hst : skipState st mm.1 = st := by
      simp [skipState, logStep, if_pos h1]
    rw [hst, if_pos h1, ih (fun mm' h' => h mm' (List.mem_cons_of_mem _ h'))]
    rfl

theorem processMembers_created (ms : List (String × MemberData)) (st : SyncState)
    (mid : String)
    (h : mid ∈ (processMembers ms st).2.1.map (fun e => e.unique_id)) :
    mid ∈ st.included_circles_members ∧ mid ∉ st.tracked_members := by
  induction ms generalizing st with
  | nil => simp [processMembers] at h
  | cons mm rest ih =>
    by_cases hin : mm.1 ∈ st.included_circles_members ∧ mm.1 ∉ st.tracked_members
    · rw [processMembers_cons_incl mm rest st hin.1 hin.2] at h
      rw [List.map_cons] at h
      rcases List.mem_cons.mp h with heq | hrest
      · rw [show (mkTracker mm).unique_id = mm.1 from rfl] at heq
        rw [heq]
        exact hin
      · obtain ⟨hi, ht⟩ := ih (inclState st mm.1) hrest
        rw [inclState_included] at hi
        rw [inclState_tracked] at ht
        exact ⟨hi, fun hmem => ht (List.mem_append_left _ hmem)⟩
    · rw [processMembers_cons_skip mm rest st hin] at h
      exact ih (skipState st mm.1) h

theorem processMembers_creates (ms : List (String × MemberData)) (st : SyncState)
    (mid : String)
    (h1 : mid ∈ ms.map (fun mm => mm.1))
    (h2 : mid ∈ st.included_circles_members)
    (h3 : mid ∉ st.tracked_members) :
    mid ∈ (processMembers ms st).2.1.map (fun e => e.unique_id) := by
  induction ms generalizing st with
  | nil => simp at h1
  | cons mm rest ih =>
    rw [List.map_cons] at h1
    by_cases heq : mid = mm.1
    · rw [processMembers_cons_incl mm rest st (heq ▸ h2) (heq ▸ h3)]
      rw [List.map_cons]
      exact List.mem_cons.mpr (Or.inl (heq.trans rfl))
    · have hrest : mid ∈ rest.map (fun mm => mm.1) := by
        rcases List.mem_cons.mp h1 with ha | hb
        · exact absurd ha heq
        · exact hb
      by_cases hin : mm.1 ∈ st.included_circles_members ∧ mm.1 ∉ st.tracked_members
      · rw [processMembers_cons_incl mm rest st hin.1 hin.2]
        have h3' : mid ∉ (inclState st mm.1).tracked_members := by
          rw [inclState_tracked]
          intro hmem
          rcases List.mem_append.mp hmem with ha | hb
          · exact h3 ha
          · exact heq (List.mem_singleton.mp hb)
        rw [List.map_cons]
        exact List.mem_cons.mpr (Or.inr (ih (inclState st mm.1) hrest h2 h3'))
      · rw [processMembers_cons_skip mm rest st hin]
        exact ih (skipState st mm.1) hrest h2 h3

theorem processMembers_ids_nodup (ms : List (String × MemberData)) (st : SyncState) :
    ((processMembers ms st).2.1.map (fun e => e.unique_id)).Nodup := by
  induction ms generalizing st with
  | nil => simp [processMembers]
  | cons mm rest ih =>
    by_cases hin : mm.1 ∈ st.included_circles_members ∧ mm.1 ∉ st.tracked_members
    · rw [processMembers_cons_incl mm rest st hin.1 hin.2]
      rw [List.map_cons]
      refine List.nodup_cons.mpr ⟨?_, ih (inclState st mm.1)⟩
      intro hmem
      have := (processMembers_created rest (inclState st mm.1) _ hmem).2
      rw [inclState_tracked] at this
      exact this (List.mem_append_right _ (List.mem_singleton.mpr rfl))
    · rw [processMembers_cons_skip mm rest st hin]
      exact ih (skipState st mm.1)

/-! Concrete inputs used by counterexamples and witnesses. -/

/-- A fully populated member slice (the spec's §8 example, accuracy 10). -/
def memberAl : MemberData :=
  { name := "Al", entity_picture := "p.png", battery_level := 80,
    battery_charging := some false, gps_accuracy := 10, latitude := 1,
    longitude := 2, address := some "addr", at_loc_since := some "t0",
    driving := some false, last_seen := some "t1", place := some "HQ",
    speed := some 3, wifi_on := some true }

/-- The same member one refresh later: worse accuracy, new coordinates. -/
def memberAlMoved : MemberData :=
  { memberAl with gps_accuracy := 100, latitude := 3, longitude := 4 }

/-- The tracker entity for `memberAl` after its state was written once. -/
def entityAl : Entity :=
  { st := { unique_id := "m1", attr_name := "Al",
            attr_entity_picture := "p.png", data := some memberAl },
    written := { ha_available := true, ha_latitude := some 1,
                 ha_longitude := some 2, ha_accuracy := some 10 } }

/-- A member whose driving flag is true and whose speed is null. -/
def memberDrivingNullSpeed : MemberData :=
  { name := "Bob", entity_picture := "q.png", battery_level := 50,
    battery_charging := none, gps_accuracy := 10, latitude := 0,
    longitude := 0, address := none, at_loc_since := none,
    driving := some true, last_seen := none, place := none,
    speed := none, wifi_on := none }

/-- A member whose driving flag is null. -/
def memberNullDriving : MemberData :=
  { memberDrivingNullSpeed with driving := none, speed := some 3 }

/-- The place of the spec's example circle. -/
def placeHQ : Place := { name := "HQ", latitude := 7, longitude := 8, radius := 9 }

/-- The spec's example circle: one member `m1`, one place. -/
def circleHome : Circle :=
  { name := "Home", members := ["m1"], places := [("p1", placeHQ)] }

/-- The spec's §8 example snapshot. -/
def snapHome : Snapshot :=
  { circles := [("c1", circleHome)], members := [("m1", memberAl)] }

/-- A snapshot whose circle lists `m1` but whose members mapping is empty. -/
def snapCircleOnly : Snapshot :=
  { circles := [("c1", { name := "Home", members := ["m1"], places := [] })],
    members := [] }

/-- A later snapshot with no circles at all but `m1` in the members mapping. -/
def snapMemberOnly : Snapshot :=
  { circles := [], members := [("m1", memberAl)] }

/-- Synchronizer state left behind by a pass over `snapCircleOnly`. -/
def stAfterCircleOnly : SyncState :=
  (process_data snapCircleOnly initialSysState.sync).state

/-- A member whose driving flag is false and whose speed is null. -/
def memberFalseDrivingNullSpeed : MemberData :=
  { memberDrivingNullSpeed with driving := some false }

/-! Claims about the tracker-entity adapter. -/

/-- C1, counterexample: with threshold 50 and a fresh accuracy of 100,
the update is rejected (warning logged, host-written state untouched),
yet the entity's exposed `latitude` property now returns the new value 3
instead of its pre-update value 1: the data shortcut is refreshed before
the gate, so the adapter's observable state is NOT unchanged. -/
theorem accuracy_gate_exposes_new_latitude :
    _handle_coordinator_update true (some 50) [("m1", memberAlMoved)] entityAl =
      Except.ok ({ st := { entityAl.st with data := some memberAlMoved },
                   written := entityAl.written }, true) ∧
    latitude entityAl.st = Except.ok 1 ∧
    latitude { entityAl.st with data := some memberAlMoved } = Except.ok 3 := by
  exact ⟨rfl, rfl, rfl⟩

/-- C1, amended: if the threshold is configured and the freshly resolved
accuracy exceeds it, the handler logs a warning and does not propagate
the update to the host state layer (the written state keeps its
pre-update values); however the adapter's internal data slice — and with
it the values its property getters expose — is already refreshed to the
new snapshot before the gate. -/
theorem accuracy_gate_keeps_written_state (sa : Bool) (t : Int)
    (members : List (String × MemberData)) (e : Entity) (m : MemberData)
    (hm : dictGet members e.st.unique_id = some m)
    (hacc : t < m.gps_accuracy) :
    _handle_coordinator_update sa (some t) members e =
      Except.ok ({ st := { e.st with data := some m }, written := e.written }, true) := by
  simp [_handle_coordinator_update, location_accuracy, hm, hacc]

/-- C1 witness: the amended gate theorem evaluated on `entityAl` with
threshold 50 against the moved snapshot. -/
theorem accuracy_gate_keeps_written_state_witness :
    _handle_coordinator_update true (some 50) [("m1", memberAlMoved)] entityAl =
      Except.ok ({ st := { entityAl.st with data := some memberAlMoved },
                   written := entityAl.written }, true) :=
  accuracy_gate_keeps_written_state true 50 [("m1", memberAlMoved)] entityAl
    memberAlMoved rfl (by decide)

/-- C2: with a maximum-GPS-accuracy threshold configured and the member
absent from the snapshot, the update handler raises `TypeError`
(`self.location_accuracy` subscripts `self._data = None`) instead of
completing with the entity unavailable; without a threshold it does
complete and the entity becomes unavailable. -/
theorem handler_raises_on_absent_member_with_threshold :
    _handle_coordinator_update true (some 50) [] entityAl =
      Except.error PyErr.typeError ∧
    (_handle_coordinator_update true none [] entityAl).map
      (fun r => available true r.1.st) = Except.ok false := by
  exact ⟨rfl, rfl⟩

/-- C5: for a member with stored driving flag `false` and stored speed
`S`, with a configured driving-speed threshold `d` the exposed driving
attribute equals `S > d`; with the threshold unset it equals the stored
flag unchanged. -/
theorem driving_attribute_derivation (m : MemberData) (S d : Int)
    (hdr : m.driving = some false) (hsp : m.speed = some S) :
    (extra_state_attributes (some m) (some d)).map
        (fun attrs => attrsGet attrs AttrKey.driving) =
      Except.ok (some (AttrVal.bool (decide (d < S)))) ∧
    (extra_state_attributes (some m) none).map
        (fun attrs => attrsGet attrs AttrKey.driving) =
      Except.ok (some (AttrVal.bool false)) := by
  constructor
  · simp [extra_state_attributes, attrsGet_base_driving, attrsGet_base_speed,
      hdr, hsp, truthy, attrsGet_attrsSet_self, Except.map]
  · simp [extra_state_attributes, attrsGet_base_driving, hdr, Except.map]

/-- C5 witness: `memberAl` (driving false, speed 3) against threshold 2
exposes driving = true; with no threshold it stays false. -/
theorem driving_attribute_derivation_witness :
    (extra_state_attributes (some memberAl) (some 2)).map
        (fun attrs => attrsGet attrs AttrKey.driving) =
      Except.ok (some (AttrVal.bool true)) ∧
    (extra_state_attributes (some memberAl) none).map
        (fun attrs => attrsGet attrs AttrKey.driving) =
      Except.ok (some (AttrVal.bool false)) :=
  driving_attribute_derivation memberAl 3 2 rfl rfl

/-- C6: the entity is available exactly when the host framework's
availability holds and the current data slice is non-absent. -/
theorem available_iff (sa : Bool) (st : EntityState) :
    available sa st = true ↔ (sa = true ∧ st.data ≠ none) := by
  cases h : st.data <;> simp [available, h]

/-- C6 witness: the characterization evaluated on `entityAl` (host
available, slice present). -/
theorem available_iff_witness :
    available true entityAl.st = true :=
  (available_iff true entityAl.st).mpr ⟨rfl, by decide⟩

/-- The entity's property contract surface (name, entity picture,
battery level, location accuracy, latitude, longitude, extra
attributes). -/
inductive ContractProp where
  | prop_name
  | prop_picture
  | prop_battery
  | prop_accuracy
  | prop_latitude
  | prop_longitude
  | prop_extra
deriving DecidableEq, Repr

/-- Evaluate one contract property via its getter, reporting whether the
getter returned Python `None` (errors of the slice-subscripting getters
propagate). `entity_name` and `entity_picture` return the cached
strings; the rest read the slice. -/
def propReturnsNone (p : ContractProp) (driving_speed : Option Int)
    (super_available : Bool) (st : EntityState) : Except PyErr Bool :=
  match p with
  | ContractProp.prop_name =>
    Except.ok (decide (entity_name st = ""))
  | ContractProp.prop_picture =>
    Except.ok (decide ((entity_picture super_available st).2 = ""))
  | ContractProp.prop_battery => (battery_level st).map (fun _ => false)
  | ContractProp.prop_accuracy => (location_accuracy st).map (fun _ => false)
  | ContractProp.prop_latitude => (latitude st).map (fun _ => false)
  | ContractProp.prop_longitude => (longitude st).map (fun _ => false)
  | ContractProp.prop_extra =>
    (extra_state_attributes st.data driving_speed).map (fun _ => false)

/-- C9: for every property of the contract, when the current data slice
is absent the property returns `None` or the entity is reported
unavailable (the second disjunct always holds: `available` is false
whenever the slice is absent, so the host never consults the getters
that would subscript the absent slice). -/
theorem property_contract_absent_slice (p : ContractProp) (driving_speed : Option Int)
    (sa : Bool) (st : EntityState) (h : st.data = none) :
    propReturnsNone p driving_speed sa st = Except.ok true ∨
      available sa st = false := by
  right
  simp [available, h]

/-- C9 witness: the contract disjunction evaluated for the battery-level
property on an entity whose slice is absent. -/
theorem property_contract_absent_slice_witness :
    propReturnsNone ContractProp.prop_battery none true
        { entityAl.st with data := none } = Except.ok true ∨
      available true { entityAl.st with data := none } = false :=
  property_contract_absent_slice ContractProp.prop_battery none true
    { entityAl.st with data := none } rfl

/-- C10, counterexample: with a driving-speed threshold configured,
reading the extra attributes of a member whose stored speed is null but
whose stored driving flag is `true` does NOT raise a `KeyError`: Python's
`or` short-circuits on the truthy driving value, so the speed key is
never looked up and the property succeeds. -/
theorem extra_attrs_null_speed_no_keyerror :
    memberDrivingNullSpeed.speed = none ∧
    extra_state_attributes (some memberDrivingNullSpeed) (some 5) =
      Except.ok [(AttrKey.driving, AttrVal.bool true)] := by
  exact ⟨rfl, rfl⟩

/-- C10, amended: with a driving-speed threshold configured, the
extra-attributes derivation raises `KeyError` on the driving key exactly
when the stored driving flag is null, raises `KeyError` on the speed key
exactly when the flag is `false` and the stored speed is null, and
succeeds otherwise — in particular it is total whenever the driving flag
is non-null and either the flag is `true` (short-circuit) or the speed
is non-null. -/
theorem extra_attrs_keyerror_characterization (m : MemberData) (d : Int) :
    (extra_state_attributes (some m) (some d) =
        Except.error (PyErr.keyError AttrKey.driving) ↔ m.driving = none) ∧
    (extra_state_attributes (some m) (some d) =
        Except.error (PyErr.keyError AttrKey.speed) ↔
      m.driving = some false ∧ m.speed = none) ∧
    ((∃ attrs, extra_state_attributes (some m) (some d) = Except.ok attrs) ↔
      (m.driving = some true ∨ (m.driving = some false ∧ m.speed ≠ none))) := by
  rcases hdr : m.driving with _ | b
  · refine ⟨?_, ?_, ?_⟩ <;>
      simp [extra_state_attributes, attrsGet_base_driving, hdr]
  · cases b
    · rcases hsp : m.speed with _ | s <;> refine ⟨?_, ?_, ?_⟩ <;>
        simp [extra_state_attributes, attrsGet_base_driving, attrsGet_base_speed,
          hdr, hsp, truthy]
    · refine ⟨?_, ?_, ?_⟩ <;>
        simp [extra_state_attributes, attrsGet_base_driving, hdr, truthy]

/-- C10 witness: the characterization evaluated on the three concrete
members — null driving flag (KeyError on driving), false flag with null
speed (KeyError on speed), true flag with null speed (success). -/
theorem extra_attrs_keyerror_characterization_witness :
    extra_state_attributes (some memberNullDriving) (some 5) =
        Except.error (PyErr.keyError AttrKey.driving) ∧
    extra_state_attributes (some memberFalseDrivingNullSpeed) (some 5) =
        Except.error (PyErr.keyError AttrKey.speed) ∧
    (∃ attrs, extra_state_attributes (some memberDrivingNullSpeed) (some 5) =
        Except.ok attrs) :=
  ⟨(extra_attrs_keyerror_characterization memberNullDriving 5).1.mpr rfl,
   (extra_attrs_keyerror_characterization memberFalseDrivingNullSpeed 5).2.1.mpr ⟨rfl, rfl⟩,
   (extra_attrs_keyerror_characterization memberDrivingNullSpeed 5).2.2.mpr (Or.inl rfl)⟩

/-! Claims about the membership synchronizer. -/

theorem process_data_state (snap : Snapshot) (st : SyncState) :
    (process_data snap st).state =
      (processMembers snap.members (processCircles snap.circles st).1).1 := rfl

theorem newIds_eq (snap : Snapshot) (st : SyncState) :
    newIds (process_data snap st) =
      (processMembers snap.members (processCircles snap.circles st).1).2.1.map
        (fun e => e.unique_id) := rfl

theorem listRemove_eq_erase (l : List String) (x : String) (h : x ∈ l) :
    listRemove l x = Except.ok (l.erase x) := by
  induction l with
  | nil => cases h
  | cons y rest ih =>
    by_cases hy : y = x
    · subst hy
      simp [listRemove, List.erase_cons_head]
    · have hx : x ∈ rest := by
        rcases List.mem_cons.mp h with ha | hb
        · exact absurd ha.symm hy
        · exact hb
      simp [listRemove, hy, ih hx, List.erase_cons, Except.map]

/-- C3: a second run of `process_data` over an unchanged snapshot leaves
the synchronizer state untouched, creates no entities and emits no log
lines. -/
theorem sync_idempotent (snap : Snapshot) (st : SyncState) :
    process_data snap (process_data snap st).state =
      { state := (process_data snap st).state, entities := [], logs := [] } := by
  have hpmfix := processMembers_fixed snap.members (processCircles snap.circles st).1
  have hsatc := processCircles_saturates snap.circles st
  have hc : ∀ cc ∈ snap.circles,
      cc.1 ∈ (process_data snap st).state.logged_circles ∧
      (∀ x ∈ cc.2.members, x ∈ (process_data snap st).state.included_circles_members) ∧
      (∀ pp ∈ cc.2.places, pp.1 ∈ (process_data snap st).state.logged_places) := by
    intro cc hcc
    obtain ⟨ha, hb, hp⟩ := hsatc cc hcc
    rw [process_data_state]
    exact ⟨hpmfix.2.1 ▸ ha, fun x hx => hpmfix.1 ▸ hb x hx,
           fun pp hp' => hpmfix.2.2 ▸ hp pp hp'⟩
  have hm : ∀ mm ∈ snap.members,
      mm.1 ∈ (process_data snap st).state.logged_members ∧
      (mm.1 ∈ (process_data snap st).state.included_circles_members →
        mm.1 ∈ (process_data snap st).state.tracked_members) := by
    intro mm hmm
    rw [process_data_state]
    constructor
    · exact processMembers_logged_complete snap.members _ mm hmm
    · intro hincl
      rw [hpmfix.1] at hincl
      exact processMembers_saturates snap.members _ mm hmm hincl
  have h2c : processCircles snap.circles (process_data snap st).state =
      ((process_data snap st).state, []) :=
    processCircles_saturated snap.circles _ hc
  have h2m : processMembers snap.members (process_data snap st).state =
      ((process_data snap st).state, [], []) :=
    processMembers_saturated snap.members _ hm
  show ({ state := (processMembers snap.members
            (processCircles snap.circles (process_data snap st).state).1).1,
          entities := _, logs := _ } : SyncResult) = _
  rw [h2c]
  simp [h2m]

/-- C4, counterexample: `m1` appears in the members mapping of
`snapMemberOnly`, whose circle list is empty (so `m1` is in no included
circle of the current snapshot); yet, after an earlier pass whose
snapshot's circle did list `m1`, the accumulated included-circles set
still holds `m1` and the pass creates an entity for it. -/
theorem stale_included_set_creates_entity :
    snapMemberOnly.circles = [] ∧
    newIds (process_data snapMemberOnly stAfterCircleOnly) = ["m1"] := by
  exact ⟨rfl, rfl⟩

/-- C4, amended: for every member identifier that is not in the
accumulated included-circles set — that is, not a member of any included
circle of the current snapshot nor of any earlier snapshot processed
since setup — the pass creates no entity for it and leaves its
registry membership unchanged. -/
theorem no_entity_for_never_included (snap : Snapshot) (st : SyncState) (mid : String)
    (h1 : mid ∉ st.included_circles_members)
    (h2 : ∀ cc ∈ snap.circles, mid ∉ cc.2.members) :
    mid ∉ newIds (process_data snap st) ∧
    (mid ∈ (process_data snap st).state.tracked_members ↔
      mid ∈ st.tracked_members) := by
  have hni : mid ∉ (processCircles snap.circles st).1.included_circles_members := by
    intro hmem
    rcases processCircles_included_subset snap.circles st mid hmem with ha | ⟨cc, hcc, hx⟩
    · exact h1 ha
    · exact h2 cc hcc hx
  have hids : mid ∉ newIds (process_data snap st) := by
    rw [newIds_eq]
    intro hmem
    exact hni (processMembers_created snap.members _ mid hmem).1
  refine ⟨hids, ?_⟩
  have htr := processMembers_tracked_eq snap.members (processCircles snap.circles st).1
  have hst0 : (processCircles snap.circles st).1.tracked_members =
      st.tracked_members := (processCircles_fixed snap.circles st).1
  rw [process_data_state, htr, hst0]
  constructor
  · intro hmem
    rcases List.mem_append.mp hmem with ha | hb
    · exact ha
    · rw [newIds_eq] at hids
      exact absurd hb hids
  · exact fun hmem => List.mem_append_left _ hmem

/-- C4 witness: the amended statement evaluated for an id `m2` never
seen in any circle, on the spec's example snapshot from a fresh state. -/
theorem no_entity_for_never_included_witness :
    "m2" ∉ newIds (process_data snapHome initialSysState.sync) ∧
    ("m2" ∈ (process_data snapHome initialSysState.sync).state.tracked_members ↔
      "m2" ∈ initialSysState.sync.tracked_members) :=
  no_entity_for_never_included snapHome initialSysState.sync "m2"
    (by decide) (by decide)

/-- C7: teardown removes exactly the entity's member id from the
registry (its single occurrence goes away, every other id's membership
is untouched), and a subsequent pass over a snapshot whose included
circle still lists the member — with the member present in the members
mapping — creates a new entity for that id. -/
theorem teardown_releases_registry_slot (st : SyncState) (snap : Snapshot)
    (mid cid : String) (c : Circle)
    (h1 : st.tracked_members.count mid = 1)
    (h2 : (cid, c) ∈ snap.circles)
    (h3 : mid ∈ c.members)
    (h4 : mid ∈ snap.members.map (fun mm => mm.1)) :
    async_will_remove_from_hass st.tracked_members mid =
      Except.ok (st.tracked_members.erase mid) ∧
    mid ∉ st.tracked_members.erase mid ∧
    (∀ x, x ≠ mid → (x ∈ st.tracked_members.erase mid ↔ x ∈ st.tracked_members)) ∧
    mid ∈ newIds (process_data snap
      { st with tracked_members := st.tracked_members.erase mid }) := by
  have hmem : mid ∈ st.tracked_members := by
    have : 0 < st.tracked_members.count mid := by omega
    exact List.count_pos_iff.mp this
  have hgone : mid ∉ st.tracked_members.erase mid := by
    apply List.count_eq_zero.mp
    rw [List.count_erase_self, h1]
  refine ⟨listRemove_eq_erase _ _ hmem, hgone,
          fun x hx => List.mem_erase_of_ne hx, ?_⟩
  have hincl : mid ∈ (processCircles snap.circles
      { st with tracked_members := st.tracked_members.erase mid }).1.included_circles_members := by
    obtain ⟨_, hb, _⟩ :=
      processCircles_saturates snap.circles
        { st with tracked_members := st.tracked_members.erase mid } (cid, c) h2
    exact hb mid h3
  have htr : (processCircles snap.circles
      { st with tracked_members := st.tracked_members.erase mid }).1.tracked_members =
      st.tracked_members.erase mid :=
    (processCircles_fixed snap.circles _).1
  have hnottr : mid ∉ (processCircles snap.circles
      { st with tracked_members := st.tracked_members.erase mid }).1.tracked_members := by
    rw [htr]
    exact hgone
  rw [newIds_eq]
  exact processMembers_creates snap.members _ mid h4 hincl hnottr

/-- C7 witness: the teardown-then-resync theorem evaluated on the spec's
example snapshot from the state left by a first pass over it. -/
theorem teardown_releases_registry_slot_witness :
    async_will_remove_from_hass
        (process_data snapHome initialSysState.sync).state.tracked_members "m1" =
      Except.ok ((process_data snapHome initialSysState.sync).state.tracked_members.erase "m1") ∧
    "m1" ∉ (process_data snapHome initialSysState.sync).state.tracked_members.erase "m1" ∧
    (∀ x, x ≠ "m1" →
      (x ∈ (process_data snapHome initialSysState.sync).state.tracked_members.erase "m1" ↔
        x ∈ (process_data snapHome initialSysState.sync).state.tracked_members)) ∧
    "m1" ∈ newIds (process_data snapHome
      { (process_data snapHome initialSysState.sync).state with
        tracked_members :=
          (process_data snapHome initialSysState.sync).state.tracked_members.erase "m1" }) :=
  teardown_releases_registry_slot
    (process_data snapHome initialSysState.sync).state snapHome "m1" "c1" circleHome
    (by decide) (by decide) (by decide) (by decide)

/-- C8, counterexample: an entity is created for `m1` by a pass over
`snapMemberOnly` even though, at evaluation time, `m1` belongs to no
included circle of the current snapshot (there are none): the guard
consults the accumulated included-circles set, not the current
snapshot's circles. -/
theorem entity_created_without_current_circle :
    (∀ cc ∈ snapMemberOnly.circles, "m1" ∉ cc.2.members) ∧
    "m1" ∈ newIds (process_data snapMemberOnly stAfterCircleOnly) := by
  constructor
  · intro cc hcc
    simp [snapMemberOnly] at hcc
  · decide

/-- Preservation of the tracking invariant by one lifecycle step. -/
theorem step_preserves (s : SysState) (op : Op)
    (h1 : s.entities = s.sync.tracked_members) (h2 : s.entities.Nodup) :
    (step s op).entities = (step s op).sync.tracked_members ∧
    (step s op).entities.Nodup := by
  cases op with
  | refresh snap =>
    have htr := processMembers_tracked_eq snap.members
      (processCircles snap.circles s.sync).1
    have hst0 : (processCircles snap.circles s.sync).1.tracked_members =
        s.sync.tracked_members := (processCircles_fixed snap.circles s.sync).1
    constructor
    · show s.entities ++ newIds (process_data snap s.sync) =
        (process_data snap s.sync).state.tracked_members
      rw [process_data_state, htr, hst0, h1, newIds_eq]
    · show (s.entities ++ newIds (process_data snap s.sync)).Nodup
      refine h2.append ?_ ?_
      · rw [newIds_eq]
        exact processMembers_ids_nodup snap.members _
      · intro a ha hb
        rw [newIds_eq] at hb
        have := (processMembers_created snap.members _ a hb).2
        rw [hst0] at this
        exact this (h1 ▸ ha)
  | remove mid =>
    by_cases hm : mid ∈ s.entities
    · have hmt : mid ∈ s.sync.tracked_members := h1 ▸ hm
      show (if mid ∈ s.entities then _ else s).entities = _ ∧ _
      rw [if_pos hm] at *
      simp only [step, if_pos hm, async_will_remove_from_hass,
        listRemove_eq_erase _ _ hmt]
      exact ⟨by rw [h1], h2.erase mid⟩
    · simp only [step, if_neg hm]
      exact ⟨h1, h2⟩

/-- C8, amended: along every lifecycle trace of refreshes and teardowns,
the live entity ids coincide with the registry and are duplicate-free
(each member id is tracked by at most one entity instance at a time);
and an entity is created in a pass only for an id that is in the
accumulated included-circles set after the pass's circles phase and was
not in the registry when the pass started. -/
theorem tracking_invariant (ops : List Op) :
    ((runOps ops).entities = (runOps ops).sync.tracked_members ∧
      (runOps ops).entities.Nodup) ∧
    (∀ snap st mid, mid ∈ newIds (process_data snap st) →
      mid ∈ (processCircles snap.circles st).1.included_circles_members ∧
      mid ∉ st.tracked_members) := by
  constructor
  · have haux : ∀ (l : List Op) (s : SysState),
        s.entities = s.sync.tracked_members → s.entities.Nodup →
        (l.foldl step s).entities = (l.foldl step s).sync.tracked_members ∧
        (l.foldl step s).entities.Nodup := by
      intro l
      induction l with
      | nil => exact fun s ha hb => ⟨ha, hb⟩
      | cons op rest ih =>
        intro s ha hb
        obtain ⟨ha', hb'⟩ := step_preserves s op ha hb
        exact ih (step s op) ha' hb'
    exact haux ops initialSysState rfl List.nodup_nil
  · intro snap st mid hmem
    rw [newIds_eq] at hmem
    have hcreated := processMembers_created snap.members _ mid hmem
    refine ⟨hcreated.1, fun hmemtr => hcreated.2 ?_⟩
    rw [(processCircles_fixed snap.circles st).1]
    exact hmemtr

/-- C8 witness: the invariant after one refresh over the spec's example
snapshot, and the creation condition discharged for `m1` on that pass. -/
theorem tracking_invariant_witness :
    ((runOps [Op.refresh snapHome]).entities =
        (runOps [Op.refresh snapHome]).sync.tracked_members ∧
      (runOps [Op.refresh snapHome]).entities.Nodup) ∧
    ("m1" ∈ (processCircles snapHome.circles
        initialSysState.sync).1.included_circles_members ∧
      "m1" ∉ initialSysState.sync.tracked_members) :=
  ⟨(tracking_invariant [Op.refresh snapHome]).1,
   (tracking_invariant []).2 snapHome initialSysState.sync "m1" (by decide)⟩

end Life360
